import Mathlib

/-!
Shallow embedding of the audio-fetch/caching layer of `learn2spell`
(`src/utils/elevenLabsService.ts`): the text formatter, cache-key
derivation, the two cache tiers (in-memory session cache, durable
IndexedDB-backed `AudioCache`), and the pronunciation entry points
(`generateSpeech`, `pronounceWord`, `pronounceSpelling`,
`pronounceLetterByLetter`, `pronouncePhoneticBreakdown`).

Asynchronous effects are made explicit: a `GenState` record carries both
caches together with logs of outbound synthesis requests and durable-store
reads; the fire-and-forget durable write of `generateSpeech` is recorded
as a pending write, applied later by `flushPending`.  The network and the
durable store's internal faults are supplied by an `Env` record.
-/

namespace Learn2Spell

/-- JS `pat.isPrefixOf`-style check on char lists (helper for `strIncludes`). -/
def listStarts : List Char → List Char → Bool
  | [], _ => true
  | _ :: _, [] => false
  | a :: as, b :: bs => a == b && listStarts as bs

/-- Helper for JS `String.prototype.includes`: does `pat` occur contiguously in `s`? -/
def listContains (pat : List Char) : List Char → Bool
  | [] => listStarts pat []
  | s@(_ :: t) => listStarts pat s || listContains pat t

/-- JS `s.includes(pat)`. -/
def strIncludes (s pat : String) : Bool :=
  listContains pat.toList s.toList

/-- Embeds `hasValidApiKey` (elevenLabsService.ts line 5):
`!!API_KEY && API_KEY.length > 0 && !API_KEY.includes('your_key_here')`. -/
def hasValidApiKey (apiKey : String) : Bool :=
  (!(apiKey == "")) && decide (0 < apiKey.length) && !(strIncludes apiKey "your_key_here")

/-- The fallback Alice voice id (line 10); the env override is modelled by
keeping the voice id a field of the service state. -/
def ALICE_VOICE_ID_DEFAULT : String := "Xb7hH8MSUJpSbSDYk0k2"

/-- JS `\s` on the ASCII range (space, tab, LF, CR, VT, FF). -/
def isJsWs (c : Char) : Bool :=
  c == ' ' || c == '\t' || c == '\n' || c == '\r' ||
  c == Char.ofNat 11 || c == Char.ofNat 12

/-- Embeds `word.replace(/([.,!?;:])/g, ' $1 ')`: surround each punctuation char
with spaces. -/
def spacePunct : List Char → List Char
  | [] => []
  | c :: rest =>
    if c == '.' || c == ',' || c == '!' || c == '?' || c == ';' || c == ':' then
      ' ' :: c :: ' ' :: spacePunct rest
    else
      c :: spacePunct rest

/-- Embeds `.replace(/\s+/g, ' ')` as a single pass: `sawWs` records whether the
previous character belonged to a whitespace run already replaced. -/
def collapseWsAux : Bool → List Char → List Char
  | _, [] => []
  | sawWs, c :: rest =>
    if isJsWs c then
      if sawWs then collapseWsAux true rest
      else ' ' :: collapseWsAux true rest
    else
      c :: collapseWsAux false rest

/-- Embeds `.replace(/\s+/g, ' ')`: collapse every whitespace run to one space. -/
def collapseWs (l : List Char) : List Char :=
  collapseWsAux false l

/-- JS `String.prototype.trim` on char lists. -/
def trimChars (l : List Char) : List Char :=
  ((l.dropWhile isJsWs).reverse.dropWhile isJsWs).reverse

/-- JS `s.trim()`. -/
def strTrim (s : String) : String :=
  String.mk (trimChars s.toList)

/-- Embeds `formatForConsistentPronunciation` (lines 190-193):
```
return `"${word.replace(/([.,!?;:])/g, ' $1 ').replace(/\s+/g, ' ').trim()}."`;
```
i.e. a literal double quote, the normalized word, a period, a closing
double quote. -/
def formatForConsistentPronunciation (word : String) : String :=
  String.mk ('"' :: (trimChars (collapseWs (spacePunct word.toList)) ++ ['.', '"']))

/-- The cache key of `generateSpeech` (line 244):
`` `${formattedWord}-${ALICE_VOICE_ID}-normal` `` generalized over the
three components, as the spec's Key Deriver. -/
def deriveKey (text voiceId styleId : String) : String :=
  text ++ "-" ++ voiceId ++ "-" ++ styleId

/-- An outbound text-to-speech POST body (lines 269-273):
`{ text, model_id, voice_settings }`, plus the voice id carried in the URL. -/
structure SynthRequest where
  text : String
  voiceId : String
  modelId : String
  settingsId : String
  deriving DecidableEq, Repr

/-- A durable record (lines 112-116): `{ id: key, audioData, timestamp }`. -/
structure AudioRecord where
  id : String
  audioData : String
  timestamp : Int
  deriving DecidableEq, Repr

/-- The `AudioCache` (IndexedDB) state: whether `initDB` succeeded, and the
one object store, keyed by `id`. -/
structure AudioCacheState where
  dbAvailable : Bool
  records : List AudioRecord
  deriving DecidableEq, Repr

namespace AudioCache

/-- Embeds `AudioCache.get` (lines 66-95): `null` when the DB is unavailable or any
internal fault occurs, otherwise the stored `audioData` of the record with
the given id, `null` when absent.  Never throws (total, `Option`-valued). -/
def get (st : AudioCacheState) (key : String) (fault : Bool) : Option String :=
  if !st.dbAvailable then none
  else if fault then none
  else (st.records.find? (fun r => r.id == key)).map (fun r => r.audioData)

/-- IDB `store.put`: replace the record with the same id, or append. -/
def putRecord (records : List AudioRecord) (r : AudioRecord) : List AudioRecord :=
  if records.any (fun q => q.id == r.id) then
    records.map (fun q => if q.id == r.id then r else q)
  else
    records ++ [r]

/-- Embeds `FileReader.readAsDataURL` on the audio blob (lines 103-107): a
text-safe encoding of the payload. -/
def readAsDataURL (blob : String) : String :=
  "data:audio/mpeg;base64," ++ blob

/-- Embeds `AudioCache.set` (lines 97-130): `false` when the DB is unavailable or a
fault occurs, otherwise persist `{id: key, audioData: base64, timestamp: now}`
and return `true`.  Never throws (total, `Bool`-valued). -/
def set (st : AudioCacheState) (key blob : String) (now : Int) (fault : Bool) :
    AudioCacheState × Bool :=
  if !st.dbAvailable then (st, false)
  else if fault then (st, false)
  else ({ st with records :=
            putRecord st.records ⟨key, readAsDataURL blob, now⟩ }, true)

/-- The 30-day default of `clearOldEntries` (line 132), in milliseconds. -/
def defaultMaxAgeMs : Int := 30 * 24 * 60 * 60 * 1000

/-- Embeds `AudioCache.clearOldEntries` (lines 132-156): delete every record with
`timestamp < Date.now() - maxAgeMs`; a no-op when the DB is unavailable. -/
def clearOldEntries (st : AudioCacheState) (maxAgeMs now : Int) : AudioCacheState :=
  if !st.dbAvailable then st
  else { st with records :=
           st.records.filter (fun r => !(decide (r.timestamp < now - maxAgeMs))) }

end AudioCache

/-- The sweep run once at module load (line 163): `audioCache.clearOldEntries()`
with the default max age. -/
def startupSweep (st : AudioCacheState) (now : Int) : AudioCacheState :=
  AudioCache.clearOldEntries st AudioCache.defaultMaxAgeMs now

/-- The error taxonomy of the service, as named by the spec: the code throws
`Error` objects with the corresponding messages. -/
inductive PronounceError where
  /-- Message "No ElevenLabs API key provided. …" -/
  | missingCredential : PronounceError
  /-- Message "No word provided" / "No phonetic breakdown provided" -/
  | invalidInput : PronounceError
  /-- Message "ElevenLabs API error: …" (non-ok response or transport failure) -/
  | synthesisError : PronounceError
  deriving DecidableEq, Repr

/-- The mutable module state of `elevenLabsService.ts`: the two env-derived
constants, the session cache `Map`, the durable `AudioCache`, the pending
(not yet completed) fire-and-forget durable writes, and observation logs of
outbound synthesis requests and durable-store reads. -/
structure GenState where
  apiKey : String
  voiceId : String
  session : List (String × String)
  cache : AudioCacheState
  pending : List (String × String)
  networkLog : List SynthRequest
  durableGetLog : List String
  deriving DecidableEq, Repr

/-- Embeds `Map.get` over the session cache (latest `set` wins: `mapSet` prepends). -/
def mapGet (m : List (String × String)) (k : String) : Option String :=
  match m with
  | [] => none
  | (a, b) :: t => if a == k then some b else mapGet t k

/-- Embeds `Map.set` over the session cache. -/
def mapSet (m : List (String × String)) (k v : String) : List (String × String) :=
  (k, v) :: m

/-- The environment a call runs against: the remote synthesis endpoint
(`none` = non-ok status or transport failure) and the durable store's
internal-fault switches for this call. -/
structure Env where
  synth : SynthRequest → Option String
  durGetFault : Bool
  durSetFault : Bool

/-- Embeds `URL.createObjectURL(blob)` (line 285): a playable handle for the blob. -/
def createObjectURL (blob : String) : String :=
  "blob:" ++ blob

/-- Embeds `generateSpeech` (lines 233-300): credential check, format, key, session
cache, durable cache (promoting hits), then the network; on success the
session cache is written synchronously and a durable write is initiated
without being awaited (recorded in `pending`). -/
def generateSpeech (env : Env) (st : GenState) (word : String) :
    Except PronounceError String × GenState :=
  if !(hasValidApiKey st.apiKey) then
    (.error .missingCredential, st)
  else
    let formattedWord := formatForConsistentPronunciation word
    let cacheKey := deriveKey formattedWord st.voiceId "normal"
    match mapGet st.session cacheKey with
    | some url => (.ok url, st)
    | none =>
      let st := { st with durableGetLog := st.durableGetLog ++ [cacheKey] }
      match AudioCache.get st.cache cacheKey env.durGetFault with
      | some cachedAudio =>
        (.ok cachedAudio, { st with session := mapSet st.session cacheKey cachedAudio })
      | none =>
        let req : SynthRequest :=
          ⟨formattedWord, st.voiceId, "eleven_monolingual_v1", "normal"⟩
        let st := { st with networkLog := st.networkLog ++ [req] }
        match env.synth req with
        | none => (.error .synthesisError, st)
        | some audioBlob =>
          let audioUrl := createObjectURL audioBlob
          (.ok audioUrl,
           { st with session := mapSet st.session cacheKey audioUrl,
                     pending := st.pending ++ [(cacheKey, audioBlob)] })

/-- Complete one initiated durable write (the `.catch` on line 291 swallows a
failure, so the state is simply unchanged on failure). -/
def completeWrite (env : Env) (st : GenState) (w : String × String) (now : Int) :
    GenState :=
  { st with cache := (AudioCache.set st.cache w.1 w.2 now env.durSetFault).1 }

/-- Apply a list of initiated durable writes, oldest first. -/
def applyWrites (env : Env) (st : GenState) (l : List (String × String)) (now : Int) :
    GenState :=
  l.foldl (fun s w => completeWrite env s w now) st

/-- Complete all pending fire-and-forget durable writes, oldest first. -/
def flushPending (env : Env) (st : GenState) (now : Int) : GenState :=
  { applyWrites env st st.pending now with pending := [] }

/-- Embeds `pronounceWord` (lines 306-315): `generateSpeech` then play the handle;
playback itself is effect-free in this model. -/
def pronounceWord (env : Env) (st : GenState) (word : String) :
    Except PronounceError String × GenState :=
  generateSpeech env st word

/-- Embeds `pronounceSpelling` (lines 323-336): prefix the word with
"The word is spelled " and funnel through `generateSpeech`. -/
def pronounceSpelling (env : Env) (st : GenState) (word : String) :
    Except PronounceError String × GenState :=
  generateSpeech env st ("The word is spelled " ++ word)

/-- Embeds `word.split('').join(' . ')` (lines 421-423). -/
def joinLetters : List Char → List Char
  | [] => []
  | [c] => [c]
  | c :: rest => c :: (' ' :: '.' :: ' ' :: joinLetters rest)

/-- Embeds `pronounceLetterByLetter` (lines 408-456): credential check, empty-input
check, then a direct fetch — no cache is consulted or written. -/
def pronounceLetterByLetter (env : Env) (st : GenState) (word : String) :
    Except PronounceError String × GenState :=
  if !(hasValidApiKey st.apiKey) then
    (.error .missingCredential, st)
  else if word == "" || strTrim word == "" then
    (.error .invalidInput, st)
  else
    let simpleSpellOut := String.mk (joinLetters word.toList)
    let formattedSpellOut := "\"" ++ simpleSpellOut ++ "\"."
    let req : SynthRequest :=
      ⟨formattedSpellOut, st.voiceId, "eleven_monolingual_v1", "normal"⟩
    let st := { st with networkLog := st.networkLog ++ [req] }
    match env.synth req with
    | none => (.error .synthesisError, st)
    | some audioBlob => (.ok (createObjectURL audioBlob), st)

/-- Embeds `phoneticBreakdown.replace(hyphen-regex /g, '. ')` (line 361). -/
def hyphensToPauses : List Char → List Char
  | [] => []
  | c :: rest =>
    if c == '-' then '.' :: ' ' :: hyphensToPauses rest
    else c :: hyphensToPauses rest

/-- Embeds `.replace(/\s+/g, '. ')` (line 362): each whitespace run becomes `. `. -/
def wsToPausesAux : Bool → List Char → List Char
  | _, [] => []
  | sawWs, c :: rest =>
    if isJsWs c then
      if sawWs then wsToPausesAux true rest
      else '.' :: ' ' :: wsToPausesAux true rest
    else
      c :: wsToPausesAux false rest

/-- Embeds `pronouncePhoneticBreakdown` (lines 346-394): credential check,
empty-input check, hyphen/whitespace-to-pause formatting, then a direct
fetch — no cache is consulted or written. -/
def pronouncePhoneticBreakdown (env : Env) (st : GenState) (breakdown : String) :
    Except PronounceError String × GenState :=
  if !(hasValidApiKey st.apiKey) then
    (.error .missingCredential, st)
  else if breakdown == "" || strTrim breakdown == "" then
    (.error .invalidInput, st)
  else
    let formattedBreakdown :=
      String.mk (wsToPausesAux false (hyphensToPauses breakdown.toList))
    let formattedBreakdown := "\"" ++ formattedBreakdown ++ "\"."
    let req : SynthRequest :=
      ⟨formattedBreakdown, st.voiceId, "eleven_monolingual_v1", "normal"⟩
    let st := { st with networkLog := st.networkLog ++ [req] }
    match env.synth req with
    | none => (.error .synthesisError, st)
    | some audioBlob => (.ok (createObjectURL audioBlob), st)

/-- Events of a durable-storage lifetime: `generateSpeech`-routed calls
(`pronounceWord` / `pronounceSpelling`), and an application restart.  A
restart carries two instants: `tFlush`, at which the initiated durable
writes completed (stamping their records), and `tStart`, the next
application start, at which the module-level retention sweep
(`audioCache.clearOldEntries()`, line 163) runs and the session cache
starts empty. -/
inductive PronEvent where
  | word (w : String) : PronEvent
  | spelling (w : String) : PronEvent
  | restart (tFlush tStart : Int) : PronEvent

/-- Run a sequence of events against the service.  On restart, the pending
writes are completed at `tFlush`, then the new application instance runs
the startup retention sweep at `tStart` and begins with an empty session
cache. -/
def runEvents (env : Env) (st : GenState) : List PronEvent → GenState
  | [] => st
  | .word w :: evs => runEvents env (pronounceWord env st w).2 evs
  | .spelling w :: evs => runEvents env (pronounceSpelling env st w).2 evs
  | .restart tFlush tStart :: evs =>
      runEvents env
        { flushPending env st tFlush with
            session := [],
            cache := startupSweep (flushPending env st tFlush).cache tStart } evs

/-- The cache key an outbound request corresponds to. -/
def reqKey (r : SynthRequest) : String :=
  deriveKey r.text r.voiceId r.settingsId

/-- How many outbound synthesis requests in a log share a given cache key. -/
def countKey (log : List SynthRequest) (k : String) : Nat :=
  (log.filter (fun r => reqKey r == k)).length

/-- Is a key present in the session cache? -/
def sessHas (st : GenState) (k : String) : Bool :=
  (mapGet st.session k).isSome

/-- Is a key present in the durable store? -/
def durHas (st : GenState) (k : String) : Bool :=
  st.cache.records.any (fun r => r.id == k)

/-- Is a key the target of a pending (initiated, not completed) write? -/
def pendHas (st : GenState) (k : String) : Bool :=
  st.pending.any (fun p => p.1 == k)

/-- The caching invariant of the `generateSpeech` pipeline: the durable
store is available; every cache key has at most one outbound request so
far; a key that has been requested lives in the durable store or in a
pending write; every pending write's key is already in the session
cache; and every durable record's timestamp is nonnegative (anchoring
the lifetime's time origin, so a retention sweep within the 30-day
window deletes nothing). -/
def CacheInv (st : GenState) : Prop :=
  st.cache.dbAvailable = true ∧
  (∀ k, countKey st.networkLog k ≤ 1) ∧
  (∀ k, countKey st.networkLog k = 1 → durHas st k = true ∨ pendHas st k = true) ∧
  (∀ k, pendHas st k = true → sessHas st k = true) ∧
  (∀ r ∈ st.cache.records, 0 ≤ r.timestamp)

/-! ### Concrete fixtures used by witnesses and counterexamples -/

/-- An environment whose synthesis endpoint always succeeds and whose
durable store is fault-free. -/
def envOK : Env := ⟨fun _ => some "B", false, false⟩

/-- An environment whose synthesis endpoint always fails (to observe that a
code path issues no request). -/
def envNoNet : Env := ⟨fun _ => none, false, false⟩

/-- An environment where every completed durable `set` faults. -/
def envSetFaults : Env := ⟨fun _ => some "B", false, true⟩

/-- A fresh service state with a valid credential and empty caches. -/
def stEmpty : GenState :=
  ⟨"sk-test", ALICE_VOICE_ID_DEFAULT, [], ⟨true, []⟩, [], [], []⟩

/-- A state whose session cache already holds the key for the word `cat`
under voice id `V`. -/
def stHit : GenState :=
  ⟨"sk-test", "V", [("\"cat.\"-V-normal", "urlC")], ⟨true, []⟩, [], [], []⟩

/-- State `stHit` with the credential left empty. -/
def stHitNoKey : GenState :=
  ⟨"", "V", [("\"cat.\"-V-normal", "urlC")], ⟨true, []⟩, [], [], []⟩

/-! ### Basic lemmas -/

/-- An empty or placeholder credential fails `hasValidApiKey`. -/
lemma hasValidApiKey_eq_false {k : String}
    (h : k = "" ∨ strIncludes k "your_key_here" = true) :
    hasValidApiKey k = false := by
  rcases h with h | h
  · subst h; rfl
  · simp [hasValidApiKey, h]

/-- Writing with `mapSet` makes the key immediately visible. -/
lemma mapGet_mapSet_self (m : List (String × String)) (k v : String) :
    mapGet (mapSet m k v) k = some v := by
  simp [mapGet, mapSet]

/-- Writing with `mapSet` does not disturb other keys. -/
lemma mapGet_mapSet_other (m : List (String × String)) (k k' v : String)
    (h : k' ≠ k) : mapGet (mapSet m k v) k' = mapGet m k' := by
  have hb : (k == k') = false := beq_eq_false_iff_ne.mpr (Ne.symm h)
  simp [mapGet, mapSet, hb]

/-- Replacing the matching record keeps any present id present. -/
lemma any_map_replace_mono (l : List AudioRecord) (r : AudioRecord) (k : String)
    (h : l.any (fun q => q.id == k) = true) :
    (l.map (fun q => if q.id == r.id then r else q)).any (fun q => q.id == k)
      = true := by
  obtain ⟨q, hq, hk⟩ := List.any_eq_true.mp h
  refine List.any_eq_true.mpr
    ⟨if q.id == r.id then r else q, List.mem_map.mpr ⟨q, hq, rfl⟩, ?_⟩
  by_cases hqr : (q.id == r.id) = true
  · rw [if_pos hqr]
    have h1 : q.id = r.id := by simpa [beq_iff_eq] using hqr
    have h2 : q.id = k := by simpa [beq_iff_eq] using hk
    simp [beq_iff_eq, ← h1, h2]
  · rw [if_neg hqr]
    exact hk

/-- Replacing the matching record makes the written id present. -/
lemma any_map_replace_self (l : List AudioRecord) (r : AudioRecord)
    (h : l.any (fun q => q.id == r.id) = true) :
    (l.map (fun q => if q.id == r.id then r else q)).any (fun q => q.id == r.id)
      = true := by
  obtain ⟨q, hq, hk⟩ := List.any_eq_true.mp h
  refine List.any_eq_true.mpr
    ⟨if q.id == r.id then r else q, List.mem_map.mpr ⟨q, hq, rfl⟩, ?_⟩
  rw [if_pos hk]
  simp

/-- Applying `putRecord` keeps every present id present. -/
lemma any_putRecord_mono (l : List AudioRecord) (r : AudioRecord) (k : String)
    (h : l.any (fun q => q.id == k) = true) :
    (AudioCache.putRecord l r).any (fun q => q.id == k) = true := by
  unfold AudioCache.putRecord
  split
  · exact any_map_replace_mono l r k h
  · simp [List.any_append, h]

/-- Applying `putRecord` makes the written id present. -/
lemma any_putRecord_self (l : List AudioRecord) (r : AudioRecord) :
    (AudioCache.putRecord l r).any (fun q => q.id == r.id) = true := by
  unfold AudioCache.putRecord
  split
  · exact any_map_replace_self l r (by assumption)
  · simp [List.any_append]

/-- Running `completeWrite` only touches the cache. -/
lemma completeWrite_fields (env : Env) (s : GenState) (w : String × String)
    (now : Int) :
    (completeWrite env s w now).apiKey = s.apiKey ∧
    (completeWrite env s w now).voiceId = s.voiceId ∧
    (completeWrite env s w now).session = s.session ∧
    (completeWrite env s w now).pending = s.pending ∧
    (completeWrite env s w now).networkLog = s.networkLog := by
  exact ⟨rfl, rfl, rfl, rfl, rfl⟩

/-- Running `AudioCache.set` never changes availability. -/
lemma set_dbAvailable (st : AudioCacheState) (k b : String) (now : Int) (f : Bool) :
    (AudioCache.set st k b now f).1.dbAvailable = st.dbAvailable := by
  unfold AudioCache.set
  split
  · rfl
  · split <;> rfl

/-- Running `completeWrite` never changes availability. -/
lemma completeWrite_dbAvailable (env : Env) (s : GenState) (w : String × String)
    (now : Int) :
    (completeWrite env s w now).cache.dbAvailable = s.cache.dbAvailable := by
  unfold completeWrite
  exact set_dbAvailable s.cache w.1 w.2 now env.durSetFault

/-- A completed write keeps every present id present. -/
lemma durHas_completeWrite_mono (env : Env) (s : GenState) (w : String × String)
    (now : Int) (k : String) (h : durHas s k = true) :
    durHas (completeWrite env s w now) k = true := by
  unfold durHas completeWrite AudioCache.set
  unfold durHas at h
  split
  · exact h
  · split
    · exact h
    · exact any_putRecord_mono s.cache.records _ k h

/-- A fault-free completed write on an available store makes its key present. -/
lemma durHas_completeWrite_self (env : Env) (s : GenState) (w : String × String)
    (now : Int) (hdb : s.cache.dbAvailable = true)
    (hf : env.durSetFault = false) :
    durHas (completeWrite env s w now) w.1 = true := by
  unfold durHas completeWrite AudioCache.set
  rw [hdb, hf]
  simpa using any_putRecord_self s.cache.records ⟨w.1, AudioCache.readAsDataURL w.2, now⟩

/-- Running `applyWrites` only touches the cache. -/
lemma applyWrites_fields (env : Env) (s : GenState) (l : List (String × String))
    (now : Int) :
    (applyWrites env s l now).apiKey = s.apiKey ∧
    (applyWrites env s l now).voiceId = s.voiceId ∧
    (applyWrites env s l now).session = s.session ∧
    (applyWrites env s l now).pending = s.pending ∧
    (applyWrites env s l now).networkLog = s.networkLog := by
  induction l generalizing s with
  | nil => exact ⟨rfl, rfl, rfl, rfl, rfl⟩
  | cons w t ih => simpa [applyWrites, List.foldl_cons] using ih (completeWrite env s w now)

/-- Running `applyWrites` never changes availability. -/
lemma applyWrites_dbAvailable (env : Env) (s : GenState) (l : List (String × String))
    (now : Int) :
    (applyWrites env s l now).cache.dbAvailable = s.cache.dbAvailable := by
  induction l generalizing s with
  | nil => rfl
  | cons w t ih =>
    calc (applyWrites env (completeWrite env s w now) t now).cache.dbAvailable
        = (completeWrite env s w now).cache.dbAvailable := ih _
      _ = s.cache.dbAvailable := completeWrite_dbAvailable env s w now

/-- Running `applyWrites` keeps every present id present. -/
lemma durHas_applyWrites_mono (env : Env) (s : GenState) (l : List (String × String))
    (now : Int) (k : String) (h : durHas s k = true) :
    durHas (applyWrites env s l now) k = true := by
  induction l generalizing s with
  | nil => exact h
  | cons w t ih => exact ih _ (durHas_completeWrite_mono env s w now k h)

/-- Fault-free `applyWrites` on an available store makes every written key
present. -/
lemma durHas_applyWrites_of_mem (env : Env) (s : GenState)
    (l : List (String × String)) (now : Int) (k b : String)
    (hdb : s.cache.dbAvailable = true) (hf : env.durSetFault = false)
    (hm : (k, b) ∈ l) :
    durHas (applyWrites env s l now) k = true := by
  induction l generalizing s with
  | nil => cases hm
  | cons w t ih =>
    rcases List.mem_cons.mp hm with hm | hm
    · have : durHas (completeWrite env s w now) w.1 = true :=
        durHas_completeWrite_self env s w now hdb hf
      subst hm
      exact durHas_applyWrites_mono env _ t now k this
    · have hdb' : (completeWrite env s w now).cache.dbAvailable = true := by
        rw [completeWrite_dbAvailable]; exact hdb
      exact ih (completeWrite env s w now) hdb' hm

/-- Writing with `mapSet` keeps every present key present. -/
lemma sessHas_mapSet_mono (m : List (String × String)) (k₀ v k : String)
    (h : (mapGet m k).isSome = true) :
    (mapGet (mapSet m k₀ v) k).isSome = true := by
  by_cases hk : k = k₀
  · subst hk
    rw [mapGet_mapSet_self]
    rfl
  · rw [mapGet_mapSet_other m k₀ k v hk]
    exact h

/-- Appending one request to the log bumps exactly its own key's count. -/
lemma countKey_append (log : List SynthRequest) (r : SynthRequest) (k : String) :
    countKey (log ++ [r]) k
      = countKey log k + (if reqKey r == k then 1 else 0) := by
  simp only [countKey, List.filter_append]
  by_cases h : (reqKey r == k) = true
  · simp [h]
  · have hf : (reqKey r == k) = false := by simpa using h
    simp [hf, beq_eq_false_iff_ne.mp hf]

/-- A fault-free miss on an available store means the key is truly absent. -/
lemma durHas_eq_false_of_get_none (st : GenState) (k : String)
    (hdb : st.cache.dbAvailable = true)
    (h : AudioCache.get st.cache k false = none) : durHas st k = false := by
  have hfind : st.cache.records.find? (fun r => r.id == k) = none := by
    simpa [AudioCache.get, hdb] using h
  cases hany : durHas st k
  · rfl
  · exfalso
    unfold durHas at hany
    obtain ⟨x, hx, hpx⟩ := List.any_eq_true.mp hany
    exact (List.find?_eq_none.mp hfind x hx) hpx

/-- Every element of `putRecord l r` comes from `l` or is `r`. -/
lemma mem_putRecord {l : List AudioRecord} {r x : AudioRecord}
    (h : x ∈ AudioCache.putRecord l r) : x ∈ l ∨ x = r := by
  unfold AudioCache.putRecord at h
  split at h
  · obtain ⟨q, hq, hqx⟩ := List.mem_map.mp h
    by_cases hqr : (q.id == r.id) = true
    · right
      rw [if_pos hqr] at hqx
      exact hqx.symm
    · left
      rw [if_neg hqr] at hqx
      exact hqx ▸ hq
  · rcases List.mem_append.mp h with h | h
    · exact Or.inl h
    · right
      simpa using h

/-- Running `AudioCache.set` at a nonnegative instant keeps all record
timestamps nonnegative. -/
lemma records_nonneg_set (c : AudioCacheState) (k b : String) (now : Int)
    (f : Bool) (hrec : ∀ r ∈ c.records, 0 ≤ r.timestamp) (hnow : 0 ≤ now) :
    ∀ r ∈ (AudioCache.set c k b now f).1.records, 0 ≤ r.timestamp := by
  intro r hr
  by_cases hdb : c.dbAvailable = true
  · by_cases hf : f = true
    · have hc : (AudioCache.set c k b now f).1 = c := by
        simp [AudioCache.set, hdb, hf]
      rw [hc] at hr
      exact hrec r hr
    · have hf' : f = false := by simpa using hf
      have hc : (AudioCache.set c k b now f).1
          = { c with records :=
                (AudioCache.putRecord c.records
                  ⟨k, AudioCache.readAsDataURL b, now⟩) } := by
        simp [AudioCache.set, hdb, hf']
      rw [hc] at hr
      rcases mem_putRecord hr with h | h
      · exact hrec r h
      · rw [h]
        exact hnow
  · have hdb' : c.dbAvailable = false := by simpa using hdb
    have hc : (AudioCache.set c k b now f).1 = c := by
      simp [AudioCache.set, hdb']
    rw [hc] at hr
    exact hrec r hr

/-- Running `completeWrite` at a nonnegative instant keeps all record
timestamps nonnegative. -/
lemma records_nonneg_completeWrite (env : Env) (s : GenState)
    (w : String × String) (now : Int)
    (hrec : ∀ r ∈ s.cache.records, 0 ≤ r.timestamp) (hnow : 0 ≤ now) :
    ∀ r ∈ (completeWrite env s w now).cache.records, 0 ≤ r.timestamp :=
  records_nonneg_set s.cache w.1 w.2 now env.durSetFault hrec hnow

/-- Running `applyWrites` at a nonnegative instant keeps all record
timestamps nonnegative. -/
lemma records_nonneg_applyWrites (env : Env) (s : GenState)
    (l : List (String × String)) (now : Int) (hnow : 0 ≤ now)
    (hrec : ∀ r ∈ s.cache.records, 0 ≤ r.timestamp) :
    ∀ r ∈ (applyWrites env s l now).cache.records, 0 ≤ r.timestamp := by
  induction l generalizing s with
  | nil => exact hrec
  | cons w t ih =>
    exact ih _ (records_nonneg_completeWrite env s w now hrec hnow)

/-- A retention sweep whose instant lies within the max age of every
(nonnegatively stamped) record deletes nothing. -/
lemma clearOldEntries_eq_self (c : AudioCacheState) (maxAge now : Int)
    (hrec : ∀ r ∈ c.records, 0 ≤ r.timestamp) (hnow : now ≤ maxAge) :
    AudioCache.clearOldEntries c maxAge now = c := by
  unfold AudioCache.clearOldEntries
  split
  · rfl
  · have hfilter : c.records.filter
        (fun r => !(decide (r.timestamp < now - maxAge))) = c.records := by
      refine List.filter_eq_self.mpr (fun r hr => ?_)
      have h0 := hrec r hr
      simp only [Bool.not_eq_eq_eq_not, Bool.not_true, decide_eq_false_iff_not]
      omega
    rw [hfilter]

/-! ### Claim theorems -/

/-- C2: with a valid credential, a `generateSpeech` call whose key is
already in the session cache returns the cached handle and leaves the state
untouched — in particular the durable-read log and the network log are
unchanged, so no durable-store access and no network call occurs. -/
theorem c2_session_hit_no_io (env : Env) (st : GenState) (word url : String)
    (hkey : hasValidApiKey st.apiKey = true)
    (hhit : mapGet st.session
      (deriveKey (formatForConsistentPronunciation word) st.voiceId "normal")
      = some url) :
    generateSpeech env st word = (.ok url, st) := by
  simp [generateSpeech, hkey, hhit]

/-- Witness for C2 at the concrete word `cat` with a pre-populated session
cache. -/
theorem c2_session_hit_no_io_witness :
    generateSpeech envNoNet stHit "cat" = (.ok "urlC", stHit) :=
  c2_session_hit_no_io envNoNet stHit "cat" "urlC" (by decide) (by decide)

/-- C5: whenever the credential is unset/empty or contains the placeholder,
all four pronunciation entry points reject with `MissingCredential` and
leave the state untouched (zero network calls), for every input — including
inputs whose key is already cached. -/
theorem c5_missing_credential_fail_fast (env : Env) (st : GenState) (w : String)
    (h : st.apiKey = "" ∨ strIncludes st.apiKey "your_key_here" = true) :
    pronounceWord env st w = (.error .missingCredential, st) ∧
    pronounceSpelling env st w = (.error .missingCredential, st) ∧
    pronounceLetterByLetter env st w = (.error .missingCredential, st) ∧
    pronouncePhoneticBreakdown env st w = (.error .missingCredential, st) := by
  have hk := hasValidApiKey_eq_false h
  refine ⟨?_, ?_, ?_, ?_⟩ <;>
    simp [pronounceWord, pronounceSpelling, pronounceLetterByLetter,
          pronouncePhoneticBreakdown, generateSpeech, hk]

/-- Witness for C5: empty credential, word `cat` whose key is already in
the session cache. -/
theorem c5_missing_credential_fail_fast_witness :
    pronounceWord envOK stHitNoKey "cat" = (.error .missingCredential, stHitNoKey) ∧
    pronounceSpelling envOK stHitNoKey "cat" = (.error .missingCredential, stHitNoKey) ∧
    pronounceLetterByLetter envOK stHitNoKey "cat"
      = (.error .missingCredential, stHitNoKey) ∧
    pronouncePhoneticBreakdown envOK stHitNoKey "cat"
      = (.error .missingCredential, stHitNoKey) :=
  c5_missing_credential_fail_fast envOK stHitNoKey "cat" (Or.inl rfl)

/-- C6: with a valid credential, an empty or whitespace-only input makes
`pronounceLetterByLetter` and `pronouncePhoneticBreakdown` reject with
`InvalidInput`, leaving the state untouched (zero network calls). -/
theorem c6_empty_input_rejection (env : Env) (st : GenState) (w : String)
    (hkey : hasValidApiKey st.apiKey = true)
    (hblank : w = "" ∨ strTrim w = "") :
    pronounceLetterByLetter env st w = (.error .invalidInput, st) ∧
    pronouncePhoneticBreakdown env st w = (.error .invalidInput, st) := by
  have hcond : (w == "" || strTrim w == "") = true := by
    rcases hblank with h | h <;> simp [h]
  constructor <;>
    simp [pronounceLetterByLetter, pronouncePhoneticBreakdown, hkey, hcond]

/-- Witness for C6 at `""` (letter-by-letter) and `"   "` (phonetic). -/
theorem c6_empty_input_rejection_witness :
    pronounceLetterByLetter envOK stEmpty "" = (.error .invalidInput, stEmpty) ∧
    pronouncePhoneticBreakdown envOK stEmpty "   " = (.error .invalidInput, stEmpty) :=
  ⟨(c6_empty_input_rejection envOK stEmpty "" (by decide) (Or.inl rfl)).1,
   (c6_empty_input_rejection envOK stEmpty "   " (by decide) (Or.inr (by decide))).2⟩

/-- C3: on a full miss with successful synthesis, `generateSpeech` returns
the new handle, has written it into the session cache synchronously, has
left the durable store untouched (the write is only initiated: it sits in
`pending`), and once the asynchronous write completes fault-free the key is
present in the durable store as well, with the session entry intact. -/
theorem c3_write_through (env : Env) (st : GenState) (word blob : String)
    (hkey : hasValidApiKey st.apiKey = true)
    (hsess : mapGet st.session
      (deriveKey (formatForConsistentPronunciation word) st.voiceId "normal") = none)
    (hdur : AudioCache.get st.cache
      (deriveKey (formatForConsistentPronunciation word) st.voiceId "normal")
      env.durGetFault = none)
    (hsynth : env.synth ⟨formatForConsistentPronunciation word, st.voiceId,
      "eleven_monolingual_v1", "normal"⟩ = some blob) :
    (generateSpeech env st word).1 = .ok (createObjectURL blob) ∧
    mapGet (generateSpeech env st word).2.session
      (deriveKey (formatForConsistentPronunciation word) st.voiceId "normal")
      = some (createObjectURL blob) ∧
    (generateSpeech env st word).2.cache = st.cache ∧
    (generateSpeech env st word).2.pending
      = st.pending
        ++ [(deriveKey (formatForConsistentPronunciation word) st.voiceId "normal",
             blob)] ∧
    (env.durSetFault = false → st.cache.dbAvailable = true → ∀ now : Int,
      mapGet (flushPending env (generateSpeech env st word).2 now).session
        (deriveKey (formatForConsistentPronunciation word) st.voiceId "normal")
        = some (createObjectURL blob) ∧
      durHas (flushPending env (generateSpeech env st word).2 now)
        (deriveKey (formatForConsistentPronunciation word) st.voiceId "normal")
        = true) := by
  have hrun : generateSpeech env st word =
      (.ok (createObjectURL blob),
       { st with
           durableGetLog := st.durableGetLog
             ++ [deriveKey (formatForConsistentPronunciation word) st.voiceId "normal"],
           networkLog := st.networkLog
             ++ [⟨formatForConsistentPronunciation word, st.voiceId,
                  "eleven_monolingual_v1", "normal"⟩],
           session := mapSet st.session
             (deriveKey (formatForConsistentPronunciation word) st.voiceId "normal")
             (createObjectURL blob),
           pending := st.pending
             ++ [(deriveKey (formatForConsistentPronunciation word) st.voiceId "normal",
                  blob)] }) := by
    simp [generateSpeech, hkey, hsess, hdur, hsynth]
  rw [hrun]
  refine ⟨rfl, mapGet_mapSet_self _ _ _, rfl, rfl, fun hf hdb now => ⟨?_, ?_⟩⟩
  · rw [show (flushPending env _ now).session = _ from (applyWrites_fields env _ _ now).2.2.1]
    exact mapGet_mapSet_self _ _ _
  · exact durHas_applyWrites_of_mem env _ _ now _ blob hdb hf
      (List.mem_append_right _ (List.mem_singleton.mpr rfl))

/-- Witness for C3 at the concrete word `dog` against the fault-free
environment `envOK` and the empty state `stEmpty`. -/
theorem c3_write_through_witness :
    (generateSpeech envOK stEmpty "dog").1 = .ok (createObjectURL "B") ∧
    mapGet (generateSpeech envOK stEmpty "dog").2.session
      (deriveKey (formatForConsistentPronunciation "dog")
        stEmpty.voiceId "normal") = some (createObjectURL "B") ∧
    (generateSpeech envOK stEmpty "dog").2.cache = stEmpty.cache ∧
    (generateSpeech envOK stEmpty "dog").2.pending
      = stEmpty.pending
        ++ [(deriveKey (formatForConsistentPronunciation "dog")
              stEmpty.voiceId "normal", "B")] ∧
    (envOK.durSetFault = false → stEmpty.cache.dbAvailable = true → ∀ now : Int,
      mapGet (flushPending envOK (generateSpeech envOK stEmpty "dog").2 now).session
        (deriveKey (formatForConsistentPronunciation "dog")
          stEmpty.voiceId "normal") = some (createObjectURL "B") ∧
      durHas (flushPending envOK (generateSpeech envOK stEmpty "dog").2 now)
        (deriveKey (formatForConsistentPronunciation "dog")
          stEmpty.voiceId "normal") = true) :=
  c3_write_through envOK stEmpty "dog" "B" (by decide) (by decide) (by decide) rfl

/-- C7: the durable store's `get` and `set` never raise — an unavailable DB
or an internal fault makes `get` resolve to absent and `set` resolve to
failure with the store unchanged; a faulting completion of the initiated
writes leaves the store untouched; and with every durable `set` faulting,
`pronounceWord` after a full miss still resolves successfully with the
playable handle. -/
theorem c7_durable_failure_isolation :
    (∀ (st : AudioCacheState) (k : String) (f : Bool),
       st.dbAvailable = false → AudioCache.get st k f = none) ∧
    (∀ (st : AudioCacheState) (k : String), AudioCache.get st k true = none) ∧
    (∀ (st : AudioCacheState) (k b : String) (now : Int) (f : Bool),
       st.dbAvailable = false → AudioCache.set st k b now f = (st, false)) ∧
    (∀ (st : AudioCacheState) (k b : String) (now : Int),
       AudioCache.set st k b now true = (st, false)) ∧
    (∀ (env : Env) (st : GenState) (now : Int), env.durSetFault = true →
       (flushPending env st now).cache = st.cache) ∧
    (∀ (env : Env) (st : GenState) (word blob : String),
       env.durSetFault = true →
       hasValidApiKey st.apiKey = true →
       mapGet st.session
         (deriveKey (formatForConsistentPronunciation word) st.voiceId "normal")
         = none →
       AudioCache.get st.cache
         (deriveKey (formatForConsistentPronunciation word) st.voiceId "normal")
         env.durGetFault = none →
       env.synth ⟨formatForConsistentPronunciation word, st.voiceId,
         "eleven_monolingual_v1", "normal"⟩ = some blob →
       (pronounceWord env st word).1 = .ok (createObjectURL blob)) := by
  have hset : ∀ (st : AudioCacheState) (k b : String) (now : Int),
      AudioCache.set st k b now true = (st, false) := by
    intro st k b now
    unfold AudioCache.set
    split
    · rename_i hdb
      simp only [Bool.not_eq_true'] at hdb
      rfl
    · rfl
  refine ⟨?_, ?_, ?_, hset, ?_, ?_⟩
  · intro st k f hdb
    simp [AudioCache.get, hdb]
  · intro st k
    unfold AudioCache.get
    split
    · rfl
    · rfl
  · intro st k b now f hdb
    simp [AudioCache.set, hdb]
  · intro env st now hf
    have hall : ∀ (l : List (String × String)) (s : GenState),
        (applyWrites env s l now).cache = s.cache := by
      intro l
      induction l with
      | nil => intro s; rfl
      | cons w t ih =>
        intro s
        have hw : completeWrite env s w now = s := by
          unfold completeWrite
          rw [hf, hset s.cache w.1 w.2 now]
        calc (applyWrites env (completeWrite env s w now) t now).cache
            = (completeWrite env s w now).cache := ih _
          _ = s.cache := by rw [hw]
    exact hall st.pending st
  · intro env st word blob _ hkey hsess hdur hsynth
    simp [pronounceWord, generateSpeech, hkey, hsess, hdur, hsynth]

/-- Witness for C7: unavailable store, internal fault, and a full
`pronounceWord` run in which every durable `set` faults. -/
theorem c7_durable_failure_isolation_witness :
    AudioCache.get ⟨false, []⟩ "k" false = none ∧
    AudioCache.get ⟨true, []⟩ "k" true = none ∧
    AudioCache.set ⟨false, []⟩ "k" "b" 7 false = (⟨false, []⟩, false) ∧
    AudioCache.set ⟨true, []⟩ "k" "b" 7 true = (⟨true, []⟩, false) ∧
    (flushPending envSetFaults
      (generateSpeech envSetFaults stEmpty "cat").2 9).cache = stEmpty.cache ∧
    (pronounceWord envSetFaults stEmpty "cat").1 = .ok (createObjectURL "B") := by
  refine ⟨c7_durable_failure_isolation.1 ⟨false, []⟩ "k" false rfl,
          c7_durable_failure_isolation.2.1 ⟨true, []⟩ "k",
          c7_durable_failure_isolation.2.2.1 ⟨false, []⟩ "k" "b" 7 false rfl,
          c7_durable_failure_isolation.2.2.2.1 ⟨true, []⟩ "k" "b" 7,
          ?_,
          c7_durable_failure_isolation.2.2.2.2.2 envSetFaults stEmpty "cat" "B"
            rfl (by decide) (by decide) (by decide) rfl⟩
  have h := c7_durable_failure_isolation.2.2.2.2.1 envSetFaults
    (generateSpeech envSetFaults stEmpty "cat").2 9 rfl
  rw [h]
  decide

/-- C8: the retention sweep on an available store keeps exactly the records
whose timestamp is not strictly older than `now - maxAge`; the startup sweep
is the sweep with the default 30-day max age; and concretely, with records
31 days and 1 day old, only the 31-day-old one is removed. -/
theorem c8_retention_sweep :
    (∀ (st : AudioCacheState) (maxAge now : Int), st.dbAvailable = true →
       ∀ r : AudioRecord,
         r ∈ (AudioCache.clearOldEntries st maxAge now).records ↔
           r ∈ st.records ∧ ¬(r.timestamp < now - maxAge)) ∧
    (∀ (st : AudioCacheState) (now : Int),
       startupSweep st now
         = AudioCache.clearOldEntries st AudioCache.defaultMaxAgeMs now) ∧
    AudioCache.defaultMaxAgeMs = 2592000000 ∧
    (startupSweep ⟨true, [⟨"old", "d", 0⟩, ⟨"new", "e", 2592000000⟩]⟩
        2678400000).records
      = [⟨"new", "e", 2592000000⟩] := by
  refine ⟨?_, fun st now => rfl, by decide, by decide⟩
  intro st maxAge now hdb r
  simp [AudioCache.clearOldEntries, hdb, List.mem_filter]

/-- Witness for C8: the sweep applied to a two-record store. -/
theorem c8_retention_sweep_witness :
    (⟨"k1", "d1", 0⟩ : AudioRecord)
      ∈ (AudioCache.clearOldEntries ⟨true, [⟨"k1", "d1", 0⟩, ⟨"k2", "d2", 100⟩]⟩
          50 120).records
      ↔ (⟨"k1", "d1", 0⟩ : AudioRecord)
          ∈ [(⟨"k1", "d1", 0⟩ : AudioRecord), ⟨"k2", "d2", 100⟩]
        ∧ ¬((0 : Int) < 120 - 50) :=
  c8_retention_sweep.1 ⟨true, [⟨"k1", "d1", 0⟩, ⟨"k2", "d2", 100⟩]⟩ 50 120 rfl
    ⟨"k1", "d1", 0⟩

/-- The function `generateSpeech` never rejects with `InvalidInput`, on any input. -/
lemma generateSpeech_not_invalidInput (env : Env) (st : GenState) (w : String) :
    (generateSpeech env st w).1 ≠ Except.error PronounceError.invalidInput := by
  by_cases hk : hasValidApiKey st.apiKey = true
  · rcases hs : mapGet st.session
        (deriveKey (formatForConsistentPronunciation w) st.voiceId "normal")
      with _ | url
    · rcases hd : AudioCache.get st.cache
          (deriveKey (formatForConsistentPronunciation w) st.voiceId "normal")
          env.durGetFault
        with _ | cached
      · rcases hn : env.synth ⟨formatForConsistentPronunciation w, st.voiceId,
            "eleven_monolingual_v1", "normal"⟩ with _ | blob
        · simp [generateSpeech, hk, hs, hd, hn]
        · simp [generateSpeech, hk, hs, hd, hn]
      · simp [generateSpeech, hk, hs, hd]
    · simp [generateSpeech, hk, hs]
  · rw [Bool.not_eq_true] at hk
    simp [generateSpeech, hk]

/-- C10: the empty word is not rejected — `generateSpeech` and
`pronounceWord` never produce `InvalidInput` for `""`; the formatted empty
word is exactly a double quote, a period and a double quote; and on a full
miss with a valid credential, a synthesis request carrying that formatted
text is issued. -/
theorem c10_empty_word_not_rejected (env : Env) (st : GenState) :
    (formatForConsistentPronunciation "").data = ['"', '.', '"'] ∧
    (generateSpeech env st "").1 ≠ Except.error PronounceError.invalidInput ∧
    (pronounceWord env st "").1 ≠ Except.error PronounceError.invalidInput ∧
    (hasValidApiKey st.apiKey = true →
     mapGet st.session
       (deriveKey (formatForConsistentPronunciation "") st.voiceId "normal") = none →
     AudioCache.get st.cache
       (deriveKey (formatForConsistentPronunciation "") st.voiceId "normal")
       env.durGetFault = none →
     (generateSpeech env st "").2.networkLog
       = st.networkLog
         ++ [⟨formatForConsistentPronunciation "", st.voiceId,
              "eleven_monolingual_v1", "normal"⟩]) := by
  refine ⟨rfl, generateSpeech_not_invalidInput env st "",
          generateSpeech_not_invalidInput env st "", fun hk hs hd => ?_⟩
  rcases hn : env.synth ⟨formatForConsistentPronunciation "", st.voiceId,
      "eleven_monolingual_v1", "normal"⟩ with _ | blob
  · simp [generateSpeech, hk, hs, hd, hn]
  · simp [generateSpeech, hk, hs, hd, hn]

/-- Witness for C10 against the fault-free environment and the fresh state. -/
theorem c10_empty_word_not_rejected_witness :
    (formatForConsistentPronunciation "").data = ['"', '.', '"'] ∧
    (generateSpeech envOK stEmpty "").1 ≠ Except.error PronounceError.invalidInput ∧
    (pronounceWord envOK stEmpty "").1 ≠ Except.error PronounceError.invalidInput ∧
    (hasValidApiKey stEmpty.apiKey = true →
     mapGet stEmpty.session
       (deriveKey (formatForConsistentPronunciation "") stEmpty.voiceId "normal")
       = none →
     AudioCache.get stEmpty.cache
       (deriveKey (formatForConsistentPronunciation "") stEmpty.voiceId "normal")
       envOK.durGetFault = none →
     (generateSpeech envOK stEmpty "").2.networkLog
       = stEmpty.networkLog
         ++ [⟨formatForConsistentPronunciation "", stEmpty.voiceId,
              "eleven_monolingual_v1", "normal"⟩]) :=
  c10_empty_word_not_rejected envOK stEmpty

/-- C4 counterexample: the formatter wraps the word in literal double
quotes, so neither the claimed formatted text `oxygen.` nor the claimed key
`oxygen.-Alice-normal` is produced — not even when the voice id is the
name `Alice`. -/
theorem c4_counterexample :
    formatForConsistentPronunciation "oxygen" ≠ "oxygen." ∧
    deriveKey (formatForConsistentPronunciation "oxygen") "Alice" "normal"
      ≠ "oxygen.-Alice-normal" ∧
    deriveKey (formatForConsistentPronunciation "oxygen")
        ALICE_VOICE_ID_DEFAULT "normal"
      ≠ "oxygen.-Alice-normal" := by
  refine ⟨by decide, by decide, by decide⟩

/-- C4 amended: for the word `oxygen` the formatter yields `"oxygen."`
(with literal quotes) and, with the default Alice voice id, the key
`"oxygen."-Xb7hH8MSUJpSbSDYk0k2-normal`; the first `generateSpeech` call
issues exactly one synthesis request and populates the session cache, the
durable write completing after the flush; a second identical call returns
the same handle from the session cache with the state — hence the network
log — unchanged. -/
theorem c4_amended_oxygen_scenario :
    formatForConsistentPronunciation "oxygen" = "\"oxygen.\"" ∧
    deriveKey (formatForConsistentPronunciation "oxygen")
        ALICE_VOICE_ID_DEFAULT "normal"
      = "\"oxygen.\"-Xb7hH8MSUJpSbSDYk0k2-normal" ∧
    (generateSpeech envOK stEmpty "oxygen").1 = .ok "blob:B" ∧
    (generateSpeech envOK stEmpty "oxygen").2.networkLog
      = [⟨"\"oxygen.\"", ALICE_VOICE_ID_DEFAULT, "eleven_monolingual_v1", "normal"⟩] ∧
    mapGet (generateSpeech envOK stEmpty "oxygen").2.session
      "\"oxygen.\"-Xb7hH8MSUJpSbSDYk0k2-normal" = some "blob:B" ∧
    (generateSpeech envOK stEmpty "oxygen").2.pending
      = [("\"oxygen.\"-Xb7hH8MSUJpSbSDYk0k2-normal", "B")] ∧
    durHas (flushPending envOK (generateSpeech envOK stEmpty "oxygen").2 3)
      "\"oxygen.\"-Xb7hH8MSUJpSbSDYk0k2-normal" = true ∧
    generateSpeech envOK (generateSpeech envOK stEmpty "oxygen").2 "oxygen"
      = (.ok "blob:B", (generateSpeech envOK stEmpty "oxygen").2) :=
  ⟨rfl, rfl, rfl, rfl, rfl, rfl, rfl, rfl⟩

/-- String append data: `(a ++ b).data` unfolds to list append. -/
lemma str_data_append (a b : String) : (a ++ b).data = a.data ++ b.data := rfl

/-- Strings with equal character data are equal. -/
lemma str_eq_of_data_eq {a b : String} (h : a.data = b.data) : a = b := by
  cases a
  cases b
  cases h
  rfl

/-- The character data of a derived key. -/
lemma deriveKey_data (t v s : String) :
    (deriveKey t v s).data = t.data ++ ['-'] ++ v.data ++ ['-'] ++ s.data := rfl

/-- C9 counterexample: the plain `-`-joined key collides across distinct
(text, voice, style) triples when a component itself contains the
delimiter. -/
theorem c9_counterexample :
    deriveKey "a-b" "c" "normal" = deriveKey "a" "b-c" "normal" ∧
    ¬(("a-b" : String) = "a" ∧ ("c" : String) = "b-c") := by
  refine ⟨rfl, by decide⟩

/-- C9 amended: key derivation is pure and deterministic, two logical
inputs differing only in extra whitespace produce the same key after
formatting, and two triples differing in exactly one component never
collide (collisions require the delimiter to straddle two components). -/
theorem c9_amended_key_derivation :
    (∀ t t' v s : String, t ≠ t' → deriveKey t v s ≠ deriveKey t' v s) ∧
    (∀ t v v' s : String, v ≠ v' → deriveKey t v s ≠ deriveKey t v' s) ∧
    (∀ t v s s' : String, s ≠ s' → deriveKey t v s ≠ deriveKey t v s') ∧
    (∀ v s : String,
       deriveKey (formatForConsistentPronunciation "cat") v s
         = deriveKey (formatForConsistentPronunciation "cat  ") v s) := by
  refine ⟨?_, ?_, ?_, ?_⟩
  · intro t t' v s hne h
    apply hne
    have hd := congrArg String.data h
    rw [deriveKey_data, deriveKey_data] at hd
    have h1 : t.data ++ ['-'] ++ v.data = t'.data ++ ['-'] ++ v.data :=
      List.append_cancel_right (List.append_cancel_right hd)
    have h2 : t.data ++ ['-'] = t'.data ++ ['-'] := List.append_cancel_right h1
    exact str_eq_of_data_eq (List.append_cancel_right h2)
  · intro t v v' s hne h
    apply hne
    have hd := congrArg String.data h
    rw [deriveKey_data, deriveKey_data] at hd
    have h1 := List.append_cancel_right (List.append_cancel_right hd)
    exact str_eq_of_data_eq (List.append_cancel_left h1)
  · intro t v s s' hne h
    apply hne
    have hd := congrArg String.data h
    rw [deriveKey_data, deriveKey_data] at hd
    exact str_eq_of_data_eq (List.append_cancel_left hd)
  · intro v s
    have hf : formatForConsistentPronunciation "cat  "
        = formatForConsistentPronunciation "cat" := rfl
    rw [hf]

/-- The function `generateSpeech` preserves the caching invariant when synthesis
succeeds and the durable store reads fault-free. -/
lemma cacheInv_generateSpeech (env : Env) (st : GenState) (w : String)
    (hsynth : ∀ r, (env.synth r).isSome = true)
    (hgf : env.durGetFault = false)
    (hinv : CacheInv st) :
    CacheInv (generateSpeech env st w).2 := by
  obtain ⟨hdb, hA, hB, hC, hE⟩ := hinv
  by_cases hk : hasValidApiKey st.apiKey = true
  · rcases hs : mapGet st.session
        (deriveKey (formatForConsistentPronunciation w) st.voiceId "normal")
      with _ | url
    · rcases hd : AudioCache.get st.cache
          (deriveKey (formatForConsistentPronunciation w) st.voiceId "normal")
          env.durGetFault with _ | cached
      · -- double miss: one synthesis request, session + pending updated
        obtain ⟨blob, hn⟩ := Option.isSome_iff_exists.mp
          (hsynth ⟨formatForConsistentPronunciation w, st.voiceId,
            "eleven_monolingual_v1", "normal"⟩)
        have hrun : (generateSpeech env st w).2 = { st with
            durableGetLog := st.durableGetLog
              ++ [deriveKey (formatForConsistentPronunciation w) st.voiceId "normal"],
            networkLog := st.networkLog
              ++ [⟨formatForConsistentPronunciation w, st.voiceId,
                   "eleven_monolingual_v1", "normal"⟩],
            session := mapSet st.session
              (deriveKey (formatForConsistentPronunciation w) st.voiceId "normal")
              (createObjectURL blob),
            pending := st.pending
              ++ [(deriveKey (formatForConsistentPronunciation w) st.voiceId "normal",
                   blob)] } := by
          simp [generateSpeech, hk, hs, hd, hn]
        have hdur0 : durHas st
            (deriveKey (formatForConsistentPronunciation w) st.voiceId "normal")
            = false :=
          durHas_eq_false_of_get_none st _ hdb (hgf ▸ hd)
        have hpend0 : pendHas st
            (deriveKey (formatForConsistentPronunciation w) st.voiceId "normal")
            = false := by
          cases hp : pendHas st
              (deriveKey (formatForConsistentPronunciation w) st.voiceId "normal")
          · rfl
          · have hsess := hC _ hp
            unfold sessHas at hsess
            rw [hs] at hsess
            simp at hsess
        have hcount0 : countKey st.networkLog
            (deriveKey (formatForConsistentPronunciation w) st.voiceId "normal")
            = 0 := by
          rcases Nat.le_one_iff_eq_zero_or_eq_one.mp (hA _) with h0 | h1
          · exact h0
          · exfalso
            rcases hB _ h1 with hD | hP
            · rw [hdur0] at hD
              exact Bool.false_ne_true hD
            · rw [hpend0] at hP
              exact Bool.false_ne_true hP
        rw [hrun]
        refine ⟨hdb, ?_, ?_, ?_, hE⟩
        · intro k
          show countKey (st.networkLog
              ++ [⟨formatForConsistentPronunciation w, st.voiceId,
                   "eleven_monolingual_v1", "normal"⟩]) k ≤ 1
          rw [countKey_append]
          by_cases hkk : (reqKey ⟨formatForConsistentPronunciation w, st.voiceId,
              "eleven_monolingual_v1", "normal"⟩ == k) = true
          · have hkeq :
                deriveKey (formatForConsistentPronunciation w) st.voiceId "normal"
                  = k := by
              simpa [beq_iff_eq, reqKey] using hkk
            rw [if_pos hkk, ← hkeq, hcount0]
          · rw [if_neg hkk]
            simpa using hA k
        · intro k hc
          replace hc : countKey (st.networkLog
              ++ [⟨formatForConsistentPronunciation w, st.voiceId,
                   "eleven_monolingual_v1", "normal"⟩]) k = 1 := hc
          rw [countKey_append] at hc
          by_cases hkk : (reqKey ⟨formatForConsistentPronunciation w, st.voiceId,
              "eleven_monolingual_v1", "normal"⟩ == k) = true
          · right
            show (st.pending
                ++ [(deriveKey (formatForConsistentPronunciation w) st.voiceId
                      "normal", blob)]).any (fun p => p.1 == k) = true
            have hkeq :
                deriveKey (formatForConsistentPronunciation w) st.voiceId "normal"
                  = k := by
              simpa [beq_iff_eq, reqKey] using hkk
            rw [List.any_append]
            simp [hkeq]
          · rw [if_neg hkk, Nat.add_zero] at hc
            rcases hB k hc with hD | hP
            · exact Or.inl hD
            · right
              show (st.pending
                  ++ [(deriveKey (formatForConsistentPronunciation w) st.voiceId
                        "normal", blob)]).any (fun p => p.1 == k) = true
              rw [List.any_append]
              unfold pendHas at hP
              simp [hP]
        · intro k hp
          show (mapGet (mapSet st.session
              (deriveKey (formatForConsistentPronunciation w) st.voiceId "normal")
              (createObjectURL blob)) k).isSome = true
          replace hp : (st.pending
              ++ [(deriveKey (formatForConsistentPronunciation w) st.voiceId
                    "normal", blob)]).any (fun p => p.1 == k) = true := hp
          rw [List.any_append, Bool.or_eq_true] at hp
          rcases hp with hp | hp
          · exact sessHas_mapSet_mono _ _ _ _ (hC k hp)
          · have hkeq :
                deriveKey (formatForConsistentPronunciation w) st.voiceId "normal"
                  = k := by
              simpa [beq_iff_eq] using hp
            rw [← hkeq, mapGet_mapSet_self]
            rfl
      · -- durable hit: promoted into the session cache, nothing else moves
        have hrun : (generateSpeech env st w).2 = { st with
            durableGetLog := st.durableGetLog
              ++ [deriveKey (formatForConsistentPronunciation w) st.voiceId "normal"],
            session := mapSet st.session
              (deriveKey (formatForConsistentPronunciation w) st.voiceId "normal")
              cached } := by
          simp [generateSpeech, hk, hs, hd]
        rw [hrun]
        exact ⟨hdb, hA, hB, fun k hp => sessHas_mapSet_mono _ _ _ k (hC k hp), hE⟩
    · -- session hit: state unchanged
      have hrun : (generateSpeech env st w).2 = st := by
        simp [generateSpeech, hk, hs]
      rw [hrun]
      exact ⟨hdb, hA, hB, hC, hE⟩
  · -- missing credential: state unchanged
    rw [Bool.not_eq_true] at hk
    have hrun : (generateSpeech env st w).2 = st := by
      simp [generateSpeech, hk]
    rw [hrun]
    exact ⟨hdb, hA, hB, hC, hE⟩

/-- A restart — pending writes completed fault-free at `tFlush`, startup
retention sweep run at `tStart` within the retention window, session cache
lost — preserves the caching invariant. -/
lemma cacheInv_restart (env : Env) (st : GenState) (tF tS : Int)
    (hsf : env.durSetFault = false) (htF : 0 ≤ tF)
    (htS : tS ≤ AudioCache.defaultMaxAgeMs) (hinv : CacheInv st) :
    CacheInv { flushPending env st tF with
        session := [],
        cache := startupSweep (flushPending env st tF).cache tS } := by
  obtain ⟨hdb, hA, hB, hC, hE⟩ := hinv
  have hrecs :
      ∀ r ∈ (applyWrites env st st.pending tF).cache.records, 0 ≤ r.timestamp :=
    records_nonneg_applyWrites env st st.pending tF htF hE
  have hsw : startupSweep (flushPending env st tF).cache tS
      = (flushPending env st tF).cache := by
    show AudioCache.clearOldEntries (flushPending env st tF).cache
        AudioCache.defaultMaxAgeMs tS = (flushPending env st tF).cache
    exact clearOldEntries_eq_self _ AudioCache.defaultMaxAgeMs tS hrecs htS
  rw [hsw]
  refine ⟨?_, ?_, ?_, ?_, ?_⟩
  · exact (applyWrites_dbAvailable env st st.pending tF).trans hdb
  · intro k
    show countKey (applyWrites env st st.pending tF).networkLog k ≤ 1
    rw [(applyWrites_fields env st st.pending tF).2.2.2.2]
    exact hA k
  · intro k hc
    replace hc : countKey (applyWrites env st st.pending tF).networkLog k = 1 := hc
    rw [(applyWrites_fields env st st.pending tF).2.2.2.2] at hc
    left
    show durHas (applyWrites env st st.pending tF) k = true
    rcases hB k hc with hD | hP
    · exact durHas_applyWrites_mono env st st.pending tF k hD
    · unfold pendHas at hP
      obtain ⟨p, hp, hpk⟩ := List.any_eq_true.mp hP
      have hkp : p.1 = k := by simpa [beq_iff_eq] using hpk
      have hmem : (k, p.2) ∈ st.pending := by
        rw [← hkp]
        exact hp
      exact durHas_applyWrites_of_mem env st st.pending tF k p.2 hdb hsf hmem
  · intro k hp
    replace hp : ([] : List (String × String)).any (fun p => p.1 == k) = true := hp
    simp at hp
  · exact hrecs

/-- Any run of `pronounceWord` / `pronounceSpelling` calls and restarts
whose flush instants are nonnegative and whose start instants lie within
the 30-day retention window preserves the caching invariant, in a reliable
environment. -/
lemma cacheInv_runEvents (env : Env) (evs : List PronEvent) (st : GenState)
    (hsynth : ∀ r, (env.synth r).isSome = true)
    (hgf : env.durGetFault = false) (hsf : env.durSetFault = false)
    (htimes : ∀ tF tS : Int, PronEvent.restart tF tS ∈ evs →
       0 ≤ tF ∧ tS ≤ AudioCache.defaultMaxAgeMs)
    (hinv : CacheInv st) :
    CacheInv (runEvents env st evs) := by
  induction evs generalizing st with
  | nil => exact hinv
  | cons e t ih =>
    have htimes' : ∀ tF tS : Int, PronEvent.restart tF tS ∈ t →
        0 ≤ tF ∧ tS ≤ AudioCache.defaultMaxAgeMs :=
      fun tF tS h => htimes tF tS (List.mem_cons_of_mem e h)
    cases e with
    | word w =>
      exact ih _ htimes' (cacheInv_generateSpeech env st w hsynth hgf hinv)
    | spelling w =>
      exact ih _ htimes' (cacheInv_generateSpeech env st _ hsynth hgf hinv)
    | restart tF tS =>
      have ht := htimes tF tS (List.mem_cons_self _ _)
      exact ih _ htimes' (cacheInv_restart env st tF tS hsf ht.1 ht.2 hinv)

/-- C1 counterexample: two successive `pronounceLetterByLetter` calls for
the same word (valid credential, reliable network) issue two outbound
synthesis requests for the identical (formatted text, voice, style)
triple — the letter-by-letter and phonetic entry points bypass both
caches, so the claimed at-most-one-request invariant fails as stated. -/
theorem c1_counterexample :
    countKey
      (pronounceLetterByLetter envOK
        (pronounceLetterByLetter envOK stEmpty "ab").2 "ab").2.networkLog
      (deriveKey "\"a . b\"." ALICE_VOICE_ID_DEFAULT "normal") = 2 := by
  decide

/-- C1 amended: restricted to the `generateSpeech`-routed entry points
(`pronounceWord`, `pronounceSpelling`), and to lifetimes whose restarts
stay within the 30-day retention window of the durable records, the
invariant holds — across any such sequence of calls and restarts (empty
logs and no pending writes initially, durable store available with
nonnegatively stamped records, synthesis succeeding, durable reads/writes
fault-free, write completions at nonnegative instants, every application
start at most 30 days after the time origin), at most one outbound
synthesis request is made per cache key.  Outside that window the startup
retention sweep purges the record: concretely, pronouncing `cat`, then
restarting one millisecond past the 30-day default max age, then
pronouncing `cat` again issues a second request for the same key. -/
theorem c1_at_most_one_request_per_key :
    (∀ (env : Env) (st : GenState) (evs : List PronEvent) (k : String),
       (∀ r, (env.synth r).isSome = true) →
       env.durGetFault = false → env.durSetFault = false →
       st.networkLog = [] → st.pending = [] →
       st.cache.dbAvailable = true →
       (∀ r ∈ st.cache.records, 0 ≤ r.timestamp) →
       (∀ tF tS : Int, PronEvent.restart tF tS ∈ evs →
          0 ≤ tF ∧ tS ≤ AudioCache.defaultMaxAgeMs) →
       countKey (runEvents env st evs).networkLog k ≤ 1) ∧
    countKey
      (runEvents envOK stEmpty
        [.word "cat", .restart 0 2592000001, .word "cat"]).networkLog
      (deriveKey "\"cat.\"" ALICE_VOICE_ID_DEFAULT "normal") = 2 := by
  constructor
  · intro env st evs k hsynth hgf hsf hlog hpend hdb hrec htimes
    have hinv : CacheInv st := by
      refine ⟨hdb, ?_, ?_, ?_, hrec⟩
      · intro k'
        rw [hlog]
        simp [countKey]
      · intro k' hc
        rw [hlog] at hc
        simp [countKey] at hc
      · intro k' hp
        unfold pendHas at hp
        rw [hpend] at hp
        simp at hp
    exact (cacheInv_runEvents env evs st hsynth hgf hsf htimes hinv).2.1 k
  · decide

/-- Witness for C1 amended: the word `cat` pronounced, the app restarted
within the retention window (write completed at 5 ms, next start at
10 ms), and `cat` pronounced again — still at most one request for its
key. -/
theorem c1_at_most_one_request_per_key_witness :
    countKey
      (runEvents envOK stEmpty
        [.word "cat", .restart 5 10, .word "cat"]).networkLog
      (deriveKey "\"cat.\"" ALICE_VOICE_ID_DEFAULT "normal") ≤ 1 :=
  c1_at_most_one_request_per_key.1 envOK stEmpty
    [.word "cat", .restart 5 10, .word "cat"]
    (deriveKey "\"cat.\"" ALICE_VOICE_ID_DEFAULT "normal")
    (fun _ => rfl) rfl rfl rfl rfl rfl
    (fun r hr => absurd hr (List.not_mem_nil r))
    (fun tF tS h => by
      simp only [List.mem_cons, List.not_mem_nil, or_false] at h
      rcases h with h | h | h
      · exact absurd h (by simp)
      · obtain ⟨h1, h2⟩ := PronEvent.restart.injEq tF tS 5 10 ▸ h
        subst h1
        subst h2
        exact ⟨by decide, by decide⟩
      · exact absurd h (by simp))

/-- Witness for C9 amended: distinct texts, voices and styles at concrete
strings, and the concrete whitespace-normalization instance. -/
theorem c9_amended_key_derivation_witness :
    deriveKey "a" "V" "normal" ≠ deriveKey "b" "V" "normal" ∧
    deriveKey "a" "V" "normal" ≠ deriveKey "a" "W" "normal" ∧
    deriveKey "a" "V" "normal" ≠ deriveKey "a" "V" "slow" ∧
    deriveKey (formatForConsistentPronunciation "cat") "V" "normal"
      = deriveKey (formatForConsistentPronunciation "cat  ") "V" "normal" :=
  ⟨c9_amended_key_derivation.1 "a" "b" "V" "normal" (by decide),
   c9_amended_key_derivation.2.1 "a" "V" "W" "normal" (by decide),
   c9_amended_key_derivation.2.2.1 "a" "V" "normal" "slow" (by decide),
   c9_amended_key_derivation.2.2.2 "V" "normal"⟩

end Learn2Spell
